import Mathlib

/-!
Verification of the descriptor-set collection aggregator
(`src/vulkano/src/descriptor/descriptor_set/collection.rs`) and the
two-buffer vertex definition (`src/vulkano/src/pipeline/vertex/two.rs`).

The Rust code is shallowly embedded: each trait impl becomes a Lean
function on an explicit datatype of collection variants, `usize`
becomes `Nat`, and partial operations (`Option`, early `return`,
panics) become `Option` / `Except` values.  A `usize` subtraction that
could underflow, and the `unwrap` calls, are modelled explicitly so
that panic-freedom is a provable statement: the outer `Option`
(respectively the `Except VertexPanic`) layer is `none` / `.error`
exactly when the Rust code would panic.
-/

set_option autoImplicit false

namespace Vulkano

/-- Descriptor metadata (`DescriptorDesc`) is treated opaquely by this layer; only its identity
matters. -/
abbrev DescriptorDesc := Nat

/-- One descriptor set object, as seen through the `DescriptorSet` /
`DescriptorSetDesc` traits: its binding count, its per-binding descriptor
lookup, and the buffer/image resources it references (handles modelled as
`Nat`). -/
structure DescriptorSet where
  num_bindings : Nat
  descriptor : Nat → Option DescriptorDesc
  buffers : List Nat
  images : List Nat

/-- The three shapes for which `DescriptorSetsCollection` is implemented in
`collection.rs`: the unit impl for `()`, the blanket impl for a single
`DescriptorSet`, and the macro-generated impls for tuples of arity 2 to 26
(`group first second rest`, with `rest` covering the arities above 2). -/
inductive DescriptorSetsCollection where
  | unit : DescriptorSetsCollection
  | single (s : DescriptorSet) : DescriptorSetsCollection
  | group (first second : DescriptorSet) (rest : List DescriptorSet) :
      DescriptorSetsCollection

namespace DescriptorSetsCollection

/-- The elements of a collection in group order (specification-side view,
used to state the claims). -/
def elements : DescriptorSetsCollection → List DescriptorSet
  | .unit => []
  | .single s => [s]
  | .group a b rest => a :: b :: rest

/-- Embedding of `into_vec`.  The unit impl returns `vec![]`, the single impl
`vec![self]`.  The tuple impls run
`let mut list = self.1.into_vec(); list.insert(0, self.0); list`:
`self.1` is the *second tuple field* (a single descriptor set, whose
`into_vec` is the blanket singleton impl), so every tuple arity yields
exactly the first two elements. -/
def into_vec : DescriptorSetsCollection → List DescriptorSet
  | .unit => []
  | .single s => [s]
  | .group a b _rest => List.insertIdx 0 a [b]

/-- The countdown loop that the `impl_collection!` macro expands to inside
`num_bindings_in_set`, running over the tuple fields after the first:
`set -= 1; if set == 0 { return Some(field.num_bindings()); }`.
The outer `Option` is `none` exactly when the `usize` subtraction would
underflow (never, as proved below). -/
def num_bindings_loop : Nat → List DescriptorSet → Option (Option Nat)
  | _, [] => some none
  | set, x :: rest =>
    if set = 0 then none
    else if set - 1 = 0 then some (some x.num_bindings)
    else num_bindings_loop (set - 1) rest

/-- Embedding of `num_bindings_in_set`.  Unit impl: `None`.  Single impl:
`match set { 0 => Some(self.num_bindings()), _ => None }`.  Tuple impls:
`if set == 0 { return Some(self.0.num_bindings()); }` then the countdown
loop over the remaining fields, `None` if the loop exhausts them. -/
def num_bindings_in_set : DescriptorSetsCollection → Nat → Option (Option Nat)
  | .unit, _ => some none
  | .single s, set => some (if set = 0 then some s.num_bindings else none)
  | .group a b rest, set =>
    if set = 0 then some (some a.num_bindings)
    else num_bindings_loop set (b :: rest)

/-- The countdown loop inside the tuple impls of `descriptor`:
`set -= 1; if set == 0 { return field.descriptor(binding); }`. -/
def descriptor_loop (binding : Nat) :
    Nat → List DescriptorSet → Option (Option DescriptorDesc)
  | _, [] => some none
  | set, x :: rest =>
    if set = 0 then none
    else if set - 1 = 0 then some (x.descriptor binding)
    else descriptor_loop binding (set - 1) rest

/-- Embedding of `descriptor`.  Unit impl: `None`.  Single impl:
`match set { 0 => self.descriptor(binding), _ => None }`.  Tuple impls:
first field when `set == 0`, otherwise the countdown loop. -/
def descriptor : DescriptorSetsCollection → Nat → Nat → Option (Option DescriptorDesc)
  | .unit, _, _ => some none
  | .single s, set, binding =>
    some (if set = 0 then s.descriptor binding else none)
  | .group a b rest, set, binding =>
    if set = 0 then some (a.descriptor binding)
    else descriptor_loop binding set (b :: rest)

/-- Embedding of `buffers_list`.  Unit impl: empty iterator.  Single impl: the set's own
list.  Tuple impls: a `Vec` extended by each field's `buffers_list` in
field order. -/
def buffers_list : DescriptorSetsCollection → List Nat
  | .unit => []
  | .single s => s.buffers
  | .group a b rest => (b :: rest).foldl (fun out x => out ++ x.buffers) a.buffers

/-- Embedding of `images_list`, symmetric to `buffers_list`. -/
def images_list : DescriptorSetsCollection → List Nat
  | .unit => []
  | .single s => s.images
  | .group a b rest => (b :: rest).foldl (fun out x => out ++ x.images) a.images

end DescriptorSetsCollection

/-! ### Vertex layout reconciler (`pipeline/vertex/two.rs`) -/

/-- The member type of a vertex field (`VertexMemberTy`), treated opaquely;
its `matches` method is an external collaborator and is passed as a
function parameter below. -/
abbrev VertexMemberTy := Nat

/-- A vertex data format (`format::Format`), abstracted to an identity plus
its `size()` method, which returns `None` for formats without a defined
per-location byte size. -/
structure Format where
  id : Nat
  size : Option Nat
deriving DecidableEq, Repr

/-- Embedding of `VertexMemberInfo`: byte offset of the member inside one vertex record,
its declared type, and its array size. -/
structure VertexMemberInfo where
  offset : Nat
  ty : VertexMemberTy
  array_size : Nat
deriving DecidableEq, Repr

/-- A vertex type `T : Vertex`: its `member(name)` lookup and
`mem::size_of::<T>()`. -/
structure VertexType where
  member : String → Option VertexMemberInfo
  size_of : Nat

/-- One element of a shader interface (`ShaderInterfaceDefEntry`): a
location range `location_start..location_end`, a format, and an optional
name. -/
structure ShaderInterfaceDefEntry where
  location_start : Nat
  location_end : Nat
  format : Format
  name : Option String

/-- Embedding of `InputRate`: per-vertex or per-instance advancement of a buffer. -/
inductive InputRate where
  | perVertex
  | perInstance
deriving DecidableEq, Repr

/-- Embedding of `AttributeInfo`: byte offset within one vertex record plus format. -/
structure AttributeInfo where
  offset : Nat
  format : Format
deriving DecidableEq, Repr

/-- Embedding of `IncompatibleVertexDefinitionError`, with the payloads built at the two
`return Err(...)` sites of `definition`. -/
inductive IncompatibleVertexDefinitionError where
  | missingAttribute (attrName : String)
  | formatMismatch (attrName : String) (shader : Format × Nat)
      (defn : VertexMemberTy × Nat)
deriving DecidableEq, Repr

/-- The two `unwrap` calls in `definition` that can panic: the unwrap of an
element's optional name and the unwrap of `format.size()`. -/
inductive VertexPanic where
  | nameUnwrap
  | formatSizeUnwrap
deriving DecidableEq, Repr

/-- The `matches` method of `VertexMemberTy`
(`infos.ty.matches(array_size, format, location_count)`), an external
collaborator of this layer, passed in abstractly. -/
abbrev TyMatches := VertexMemberTy → Nat → Format → Nat → Bool

/-- The `if let Some(infos) = <T as Vertex>::member(name) { (infos, 0) }
else if let Some(infos) = <U as Vertex>::member(name) { (infos, 1) }` chain
of `definition`: the buffer index paired with the member info. -/
def lookupMember (T U : VertexType) (name : String) :
    Option (VertexMemberInfo × Nat) :=
  match T.member name with
  | some infos => some (infos, 0)
  | none =>
    match U.member name with
    | some infos => some (infos, 1)
    | none => none

/-- The `for loc in e.location.clone()` loop of `definition`, pushing
`(loc, buf_offset, AttributeInfo { offset, format })` and then advancing
`offset += e.format.size().unwrap()`; the fuel argument is the number of
remaining locations.  A format without a size panics
(`.error .formatSizeUnwrap`) whenever at least one location is emitted. -/
def expandElement (format : Format) (buf_offset : Nat) :
    Nat → Nat → Nat → Except VertexPanic (List (Nat × Nat × AttributeInfo))
  | 0, _, _ => .ok []
  | n + 1, loc, offset =>
    match format.size with
    | none => .error .formatSizeUnwrap
    | some sz =>
      match expandElement format buf_offset n (loc + 1) (offset + sz) with
      | .error p => .error p
      | .ok rest => .ok ((loc, buf_offset, ⟨offset, format⟩) :: rest)

/-- One iteration of the `for e in interface.elements()` loop of
`definition`: unwrap the name, resolve it through `lookupMember`, check
`infos.ty.matches(...)`, and expand the element's location range. -/
def processElement (T U : VertexType) (tyMatches : TyMatches)
    (e : ShaderInterfaceDefEntry) :
    Except VertexPanic
      (Except IncompatibleVertexDefinitionError (List (Nat × Nat × AttributeInfo))) :=
  match e.name with
  | none => .error .nameUnwrap
  | some name =>
    match lookupMember T U name with
    | none => .ok (.error (.missingAttribute name))
    | some (infos, buf_offset) =>
      if tyMatches infos.ty infos.array_size e.format
          (e.location_end - e.location_start) then
        match expandElement e.format buf_offset
            (e.location_end - e.location_start) e.location_start infos.offset with
        | .error p => .error p
        | .ok eAttribs => .ok (.ok eAttribs)
      else
        .ok (.error (.formatMismatch name
          (e.format, e.location_end - e.location_start)
          (infos.ty, infos.array_size)))

/-- The whole element loop of `definition`, accumulating the `attribs`
vector; an `Err` or a panic at any element aborts the remaining ones. -/
def processElements (T U : VertexType) (tyMatches : TyMatches) :
    List ShaderInterfaceDefEntry →
    Except VertexPanic
      (Except IncompatibleVertexDefinitionError (List (Nat × Nat × AttributeInfo)))
  | [] => .ok (.ok [])
  | e :: rest =>
    match processElement T U tyMatches e with
    | .error p => .error p
    | .ok (.error err) => .ok (.error err)
    | .ok (.ok eAttribs) =>
      match processElements T U tyMatches rest with
      | .error p => .error p
      | .ok (.error err) => .ok (.error err)
      | .ok (.ok tailAttribs) => .ok (.ok (eAttribs ++ tailAttribs))

/-- Embedding of `TwoBuffersDefinition::<T, U>::definition(interface)`: the element loop
followed by the fixed buffer list
`vec![(0, size_of::<T>(), Vertex), (1, size_of::<U>(), Vertex)]`. -/
def definition (T U : VertexType) (tyMatches : TyMatches)
    (interface : List ShaderInterfaceDefEntry) :
    Except VertexPanic
      (Except IncompatibleVertexDefinitionError
        (List (Nat × Nat × InputRate) × List (Nat × Nat × AttributeInfo))) :=
  match processElements T U tyMatches interface with
  | .error p => .error p
  | .ok (.error err) => .ok (.error err)
  | .ok (.ok attribs) =>
    .ok (.ok ([(0, T.size_of, .perVertex), (1, U.size_of, .perVertex)], attribs))

/-- A typed vertex buffer `TypedBufferAccess<Content = [T]>`, abstracted to
an identifying handle and its element count `len()`. -/
structure TypedBuffer where
  handle : Nat
  len : Nat
deriving DecidableEq, Repr

/-- Embedding of `TwoBuffersDefinition::decode` on a pair `(Bt, Bu)`:
`[source.0.len(), source.1.len()].iter().min().unwrap()` vertices, the two
boxed buffers in order, and instance count 1. -/
def decode (source : TypedBuffer × TypedBuffer) :
    List TypedBuffer × Nat × Nat :=
  let vertices := min source.1.len source.2.len
  ([source.1, source.2], vertices, 1)

/-! ### Concrete fixtures used by closed evaluation theorems and witnesses -/

/-- Three distinguishable descriptor sets. -/
def dsA : DescriptorSet := ⟨1, fun _ => none, [10], [20]⟩

/-- Second concrete descriptor set. -/
def dsB : DescriptorSet := ⟨2, fun _ => none, [11], [21]⟩

/-- Third concrete descriptor set. -/
def dsC : DescriptorSet := ⟨3, fun _ => none, [12], [22]⟩

/-- A format with a defined per-location size of 4 bytes. -/
def cFmt : Format := ⟨0, some 4⟩

/-- Member info declared by the first vertex type for `"pos"`. -/
def cInfoT : VertexMemberInfo := ⟨0, 5, 1⟩

/-- Member info declared by the second vertex type for `"pos"`. -/
def cInfoU : VertexMemberInfo := ⟨8, 6, 1⟩

/-- Member info with array size 3, used for the format-mismatch case. -/
def cInfoArr3 : VertexMemberInfo := ⟨4, 7, 3⟩

/-- Vertex type declaring `"pos"` with `cInfoT`. -/
def cT : VertexType := ⟨fun n => if n = "pos" then some cInfoT else none, 12⟩

/-- Vertex type declaring `"pos"` with `cInfoU` (conflicting with `cT`). -/
def cU : VertexType := ⟨fun n => if n = "pos" then some cInfoU else none, 8⟩

/-- Vertex type declaring `"pos"` with array size 3. -/
def cTArr : VertexType := ⟨fun n => if n = "pos" then some cInfoArr3 else none, 16⟩

/-- Vertex type declaring no members at all. -/
def cEmptyVertex : VertexType := ⟨fun _ => none, 4⟩

/-- A member-type matcher that accepts everything. -/
def cMatchTrue : TyMatches := fun _ _ _ _ => true

/-- A member-type matcher that compares the declared array size with the
element's occupied location count. -/
def cMatchCount : TyMatches := fun _ array_size _ cnt => array_size == cnt

/-- Interface element named `"pos"` spanning locations 2 and 3. -/
def cElemPos : ShaderInterfaceDefEntry := ⟨2, 4, cFmt, some "pos"⟩

/-- Interface element named `"pos"` occupying a single location. -/
def cElemPos1 : ShaderInterfaceDefEntry := ⟨0, 1, cFmt, some "pos"⟩

/-- Interface element named `"color"`, declared by no vertex type here. -/
def cElemColor : ShaderInterfaceDefEntry := ⟨0, 1, cFmt, some "color"⟩

/-- Interface element with no name. -/
def cElemUnnamed : ShaderInterfaceDefEntry := ⟨1, 2, cFmt, none⟩

/-! ### Lemmas about the collection aggregator -/

namespace DescriptorSetsCollection

lemma num_bindings_loop_eq :
    ∀ (others : List DescriptorSet) (set : Nat), set ≠ 0 →
      num_bindings_loop set others =
        some ((others[set - 1]?).map DescriptorSet.num_bindings)
  | [], set, _ => by simp [num_bindings_loop]
  | x :: rest, set, h => by
    obtain ⟨k, rfl⟩ : ∃ k, set = k + 1 := ⟨set - 1, by omega⟩
    rw [num_bindings_loop]
    rcases Nat.eq_zero_or_pos k with hk | hk
    · subst hk; simp
    · have hk' : k ≠ 0 := by omega
      rw [if_neg (by omega), if_neg (by omega)]
      simp only [Nat.add_sub_cancel]
      rw [num_bindings_loop_eq rest k hk']
      obtain ⟨m, rfl⟩ : ∃ m, k = m + 1 := ⟨k - 1, by omega⟩
      simp

lemma descriptor_loop_eq (binding : Nat) :
    ∀ (others : List DescriptorSet) (set : Nat), set ≠ 0 →
      descriptor_loop binding set others =
        some ((others[set - 1]?).bind fun s => s.descriptor binding)
  | [], set, _ => by simp [descriptor_loop]
  | x :: rest, set, h => by
    obtain ⟨k, rfl⟩ : ∃ k, set = k + 1 := ⟨set - 1, by omega⟩
    rw [descriptor_loop]
    rcases Nat.eq_zero_or_pos k with hk | hk
    · subst hk; simp
    · have hk' : k ≠ 0 := by omega
      rw [if_neg (by omega), if_neg (by omega)]
      simp only [Nat.add_sub_cancel]
      rw [descriptor_loop_eq binding rest k hk']
      obtain ⟨m, rfl⟩ : ∃ m, k = m + 1 := ⟨k - 1, by omega⟩
      simp

lemma num_bindings_in_set_eq (c : DescriptorSetsCollection) (set : Nat) :
    num_bindings_in_set c set =
      some (((elements c)[set]?).map DescriptorSet.num_bindings) := by
  cases c with
  | unit => simp [num_bindings_in_set, elements]
  | single s => cases set <;> simp [num_bindings_in_set, elements]
  | group a b rest =>
    cases set with
    | zero => simp [num_bindings_in_set, elements]
    | succ k =>
      rw [num_bindings_in_set, if_neg (by omega),
        num_bindings_loop_eq (b :: rest) (k + 1) (by omega)]
      simp [elements]

lemma descriptor_eq (c : DescriptorSetsCollection) (set binding : Nat) :
    descriptor c set binding =
      some (((elements c)[set]?).bind fun s => s.descriptor binding) := by
  cases c with
  | unit => simp [descriptor, elements]
  | single s => cases set <;> simp [descriptor, elements]
  | group a b rest =>
    cases set with
    | zero => simp [descriptor, elements]
    | succ k =>
      rw [descriptor, if_neg (by omega),
        descriptor_loop_eq binding (b :: rest) (k + 1) (by omega)]
      simp [elements]

lemma foldl_extend (f : DescriptorSet → List Nat) :
    ∀ (l : List DescriptorSet) (init : List Nat),
      l.foldl (fun out x => out ++ f x) init = init ++ (l.map f).flatten
  | [], init => by simp
  | x :: rest, init => by
    simp [List.foldl_cons, foldl_extend f rest, List.append_assoc]

end DescriptorSetsCollection

/-! ### Lemmas about the vertex reconciler -/

/-- The attribute bindings that the location loop of `definition` produces
for one element: one binding per location index, with a running byte offset
that starts at the member's declared offset and advances by the format's
per-location size. -/
def expandedAttribs (format : Format) (buf base sz loc n : Nat) :
    List (Nat × Nat × AttributeInfo) :=
  (List.range n).map fun k => (loc + k, buf, ⟨base + k * sz, format⟩)

lemma expandedAttribs_succ (format : Format) (buf base sz loc n : Nat) :
    expandedAttribs format buf base sz loc (n + 1) =
      (loc, buf, ⟨base, format⟩) ::
        expandedAttribs format buf (base + sz) sz (loc + 1) n := by
  rw [expandedAttribs, expandedAttribs, List.range_succ_eq_map]
  simp only [List.map_cons, List.map_map]
  congr 1
  · simp
  · apply List.map_congr_left
    intro k _
    simp only [Function.comp_apply, Nat.succ_eq_add_one]
    have h1 : loc + (k + 1) = loc + 1 + k := by omega
    have h2 : base + (k + 1) * sz = base + sz + k * sz := by ring
    rw [h1, h2]

lemma expandedAttribs_length (format : Format) (buf base sz loc n : Nat) :
    (expandedAttribs format buf base sz loc n).length = n := by
  simp [expandedAttribs]

lemma expandElement_eq {format : Format} {sz : Nat} (buf : Nat)
    (h : format.size = some sz) :
    ∀ (n loc base : Nat),
      expandElement format buf n loc base =
        .ok (expandedAttribs format buf base sz loc n) := by
  intro n
  induction n with
  | zero => intro loc base; simp [expandElement, expandedAttribs]
  | succ m ih =>
    intro loc base
    simp only [expandElement, h, ih (loc + 1) (base + sz), expandedAttribs_succ]

lemma expandElement_error {format : Format} {buf : Nat} :
    ∀ {n loc base : Nat} {p : VertexPanic},
      expandElement format buf n loc base = .error p → p = .formatSizeUnwrap := by
  intro n
  induction n with
  | zero => intro loc base p h; simp [expandElement] at h
  | succ m ih =>
    intro loc base p h
    rw [expandElement] at h
    cases hf : format.size with
    | none =>
      simp only [hf] at h
      simp only [Except.error.injEq] at h
      exact h.symm
    | some sz =>
      simp only [hf] at h
      cases hrec : expandElement format buf m (loc + 1) (base + sz) with
      | error q =>
        simp only [hrec, Except.error.injEq] at h
        subst h
        exact ih hrec
      | ok rest => simp only [hrec] at h; cases h

lemma processElement_of_name_none (T U : VertexType) (tyMatches : TyMatches)
    {e : ShaderInterfaceDefEntry} (h : e.name = none) :
    processElement T U tyMatches e = .error .nameUnwrap := by
  simp only [processElement, h]

lemma processElement_missing (T U : VertexType) (tyMatches : TyMatches)
    {e : ShaderInterfaceDefEntry} {nm : String} (hname : e.name = some nm)
    (hlook : lookupMember T U nm = none) :
    processElement T U tyMatches e = .ok (.error (.missingAttribute nm)) := by
  simp only [processElement, hname, hlook]

lemma processElement_mismatch (T U : VertexType) (tyMatches : TyMatches)
    {e : ShaderInterfaceDefEntry} {nm : String} {infos : VertexMemberInfo}
    {b : Nat} (hname : e.name = some nm)
    (hlook : lookupMember T U nm = some (infos, b))
    (hty : tyMatches infos.ty infos.array_size e.format
      (e.location_end - e.location_start) = false) :
    processElement T U tyMatches e =
      .ok (.error (.formatMismatch nm
        (e.format, e.location_end - e.location_start)
        (infos.ty, infos.array_size))) := by
  simp [processElement, hname, hlook, hty]

lemma processElement_found (T U : VertexType) (tyMatches : TyMatches)
    {e : ShaderInterfaceDefEntry} {nm : String} {infos : VertexMemberInfo}
    {b sz : Nat} (hname : e.name = some nm)
    (hlook : lookupMember T U nm = some (infos, b))
    (hty : tyMatches infos.ty infos.array_size e.format
      (e.location_end - e.location_start) = true)
    (hsz : e.format.size = some sz) :
    processElement T U tyMatches e =
      .ok (.ok (expandedAttribs e.format b infos.offset sz e.location_start
        (e.location_end - e.location_start))) := by
  simp [processElement, hname, hlook, hty, expandElement_eq b hsz]

lemma processElement_nameUnwrap_inv {T U : VertexType} {tyMatches : TyMatches}
    {e : ShaderInterfaceDefEntry}
    (h : processElement T U tyMatches e = .error .nameUnwrap) :
    e.name = none := by
  cases hn : e.name with
  | none => rfl
  | some nm =>
    simp only [processElement, hn] at h
    cases hlook : lookupMember T U nm with
    | none => simp only [hlook] at h; cases h
    | some ib =>
      obtain ⟨infos, b⟩ := ib
      simp only [hlook] at h
      by_cases hty : tyMatches infos.ty infos.array_size e.format
        (e.location_end - e.location_start) = true
      · simp only [hty, if_true] at h
        cases hex : expandElement e.format b (e.location_end - e.location_start)
            e.location_start infos.offset with
        | error p =>
          simp only [hex, Except.error.injEq] at h
          have := expandElement_error hex
          rw [this] at h
          cases h
        | ok as => simp only [hex] at h; cases h
      · simp only [Bool.not_eq_true] at hty
        simp [hty] at h

lemma processElement_missing_inv {T U : VertexType} {tyMatches : TyMatches}
    {e : ShaderInterfaceDefEntry} {nm : String}
    (h : processElement T U tyMatches e = .ok (.error (.missingAttribute nm))) :
    e.name = some nm ∧ lookupMember T U nm = none := by
  cases hn : e.name with
  | none =>
    simp only [processElement, hn] at h
    cases h
  | some nm' =>
    simp only [processElement, hn] at h
    cases hlook : lookupMember T U nm' with
    | none =>
      simp only [hlook, Except.ok.injEq, Except.error.injEq,
        IncompatibleVertexDefinitionError.missingAttribute.injEq] at h
      subst h
      exact ⟨rfl, hlook⟩
    | some ib =>
      obtain ⟨infos, b⟩ := ib
      simp only [hlook] at h
      by_cases hty : tyMatches infos.ty infos.array_size e.format
        (e.location_end - e.location_start) = true
      · simp only [hty, if_true] at h
        cases hex : expandElement e.format b (e.location_end - e.location_start)
            e.location_start infos.offset with
        | error p => simp only [hex] at h; cases h
        | ok as => simp only [hex] at h; cases h
      · simp only [Bool.not_eq_true] at hty
        simp [hty] at h

lemma lookupMember_none_iff {T U : VertexType} {nm : String} :
    lookupMember T U nm = none ↔ T.member nm = none ∧ U.member nm = none := by
  rw [lookupMember]
  cases T.member nm with
  | none => cases U.member nm <;> simp
  | some i => simp

lemma processElements_append_ok {T U : VertexType} {tyMatches : TyMatches} :
    ∀ {xs : List ShaderInterfaceDefEntry}
      {as : List (Nat × Nat × AttributeInfo)},
      processElements T U tyMatches xs = .ok (.ok as) →
      ∀ (ys : List ShaderInterfaceDefEntry),
        processElements T U tyMatches (xs ++ ys) =
          (processElements T U tyMatches ys).map (Except.map (as ++ ·)) := by
  intro xs
  induction xs with
  | nil =>
    intro as h ys
    simp only [processElements, Except.ok.injEq] at h
    subst h
    simp only [List.nil_append]
    cases hys : processElements T U tyMatches ys with
    | error p => simp [Except.map]
    | ok inner => cases inner <;> simp [Except.map]
  | cons e xs ih =>
    intro as h ys
    rw [processElements] at h
    cases hpe : processElement T U tyMatches e with
    | error p => simp only [hpe] at h; cases h
    | ok inner =>
      cases inner with
      | error err => simp only [hpe] at h; cases h
      | ok eAttribs =>
        simp only [hpe] at h
        cases hxs : processElements T U tyMatches xs with
        | error p => simp only [hxs] at h; cases h
        | ok inner2 =>
          cases inner2 with
          | error err => simp only [hxs] at h; cases h
          | ok tailAttribs =>
            simp only [hxs, Except.ok.injEq] at h
            subst h
            rw [List.cons_append, processElements, hpe, ih hxs ys]
            cases hys : processElements T U tyMatches ys with
            | error p => simp [Except.map]
            | ok inner3 =>
              cases inner3 <;> simp [Except.map, List.append_assoc]

lemma processElements_error_ok_inv {T U : VertexType} {tyMatches : TyMatches}
    {err : IncompatibleVertexDefinitionError} :
    ∀ {elems : List ShaderInterfaceDefEntry},
      processElements T U tyMatches elems = .ok (.error err) →
      ∃ es₁ e es₂ as, elems = es₁ ++ e :: es₂ ∧
        processElements T U tyMatches es₁ = .ok (.ok as) ∧
        processElement T U tyMatches e = .ok (.error err) := by
  intro elems
  induction elems with
  | nil => intro h; simp only [processElements] at h; cases h
  | cons e rest ih =>
    intro h
    rw [processElements] at h
    cases hpe : processElement T U tyMatches e with
    | error p => simp only [hpe] at h; cases h
    | ok inner =>
      cases inner with
      | error err' =>
        simp only [hpe, Except.ok.injEq, Except.error.injEq] at h
        subst h
        exact ⟨[], e, rest, [], rfl, rfl, hpe⟩
      | ok eAttribs =>
        simp only [hpe] at h
        cases hrest : processElements T U tyMatches rest with
        | error p => simp only [hrest] at h; cases h
        | ok inner2 =>
          cases inner2 with
          | error err' =>
            simp only [hrest, Except.ok.injEq, Except.error.injEq] at h
            subst h
            obtain ⟨es₁, e', es₂, as, hsplit, hpre, hfail⟩ := ih hrest
            refine ⟨e :: es₁, e', es₂, eAttribs ++ as, by simp [hsplit], ?_, hfail⟩
            rw [processElements, hpe, hpre]
          | ok tailAttribs => simp only [hrest] at h; cases h

lemma processElements_panic_inv {T U : VertexType} {tyMatches : TyMatches}
    {p : VertexPanic} :
    ∀ {elems : List ShaderInterfaceDefEntry},
      processElements T U tyMatches elems = .error p →
      ∃ es₁ e es₂ as, elems = es₁ ++ e :: es₂ ∧
        processElements T U tyMatches es₁ = .ok (.ok as) ∧
        processElement T U tyMatches e = .error p := by
  intro elems
  induction elems with
  | nil => intro h; simp only [processElements] at h; cases h
  | cons e rest ih =>
    intro h
    rw [processElements] at h
    cases hpe : processElement T U tyMatches e with
    | error q =>
      simp only [hpe, Except.error.injEq] at h
      subst h
      exact ⟨[], e, rest, [], rfl, rfl, hpe⟩
    | ok inner =>
      cases inner with
      | error err => simp only [hpe] at h; cases h
      | ok eAttribs =>
        simp only [hpe] at h
        cases hrest : processElements T U tyMatches rest with
        | error q =>
          simp only [hrest, Except.error.injEq] at h
          subst h
          obtain ⟨es₁, e', es₂, as, hsplit, hpre, hfail⟩ := ih hrest
          refine ⟨e :: es₁, e', es₂, eAttribs ++ as, by simp [hsplit], ?_, hfail⟩
          rw [processElements, hpe, hpre]
        | ok inner2 => cases inner2 <;> simp only [hrest] at h <;> cases h

lemma definition_inner_error_iff {T U : VertexType} {tyMatches : TyMatches}
    {elems : List ShaderInterfaceDefEntry}
    {err : IncompatibleVertexDefinitionError} :
    definition T U tyMatches elems = .ok (.error err) ↔
      processElements T U tyMatches elems = .ok (.error err) := by
  rw [definition]
  cases h : processElements T U tyMatches elems with
  | error p => simp
  | ok inner => cases inner <;> simp

lemma definition_panic_iff {T U : VertexType} {tyMatches : TyMatches}
    {elems : List ShaderInterfaceDefEntry} {p : VertexPanic} :
    definition T U tyMatches elems = .error p ↔
      processElements T U tyMatches elems = .error p := by
  rw [definition]
  cases h : processElements T U tyMatches elems with
  | error q => simp
  | ok inner => cases inner <;> simp

/-! ### Claim theorems -/

/-- C1: on a three-element group `(dsA, dsB, dsC)` the macro-generated
`into_vec` returns only the first two handles `[dsA, dsB]`, a two-element
list, although the group has three elements — the elements beyond the
second are dropped, contradicting the specified behavior that an N-element
group yields exactly N handles in element order. -/
theorem into_vec_three_element_group_drops_third :
    DescriptorSetsCollection.into_vec (.group dsA dsB [dsC]) = [dsA, dsB] ∧
    (DescriptorSetsCollection.into_vec (.group dsA dsB [dsC])).length = 2 ∧
    (DescriptorSetsCollection.elements (.group dsA dsB [dsC])).length = 3 :=
  ⟨rfl, rfl, rfl⟩

/-- C2: name resolution in `definition` tries `T` before `U` and the first
descriptor declaring the name wins: if both `T` and `U` declare the
element's name, `lookupMember` resolves to `T`'s member info with buffer
index 0, `definition` succeeds with attribute bindings built from `T`'s
offset, every produced binding references buffer index 0, and no conflict
diagnostic is emitted. -/
theorem definition_first_match_wins (T U : VertexType) (tyMatches : TyMatches)
    (e : ShaderInterfaceDefEntry) (nm : String) (iT iU : VertexMemberInfo)
    (sz : Nat)
    (hname : e.name = some nm)
    (hT : T.member nm = some iT)
    (hU : U.member nm = some iU)
    (hty : tyMatches iT.ty iT.array_size e.format
      (e.location_end - e.location_start) = true)
    (hsz : e.format.size = some sz) :
    lookupMember T U nm = some (iT, 0) ∧
    definition T U tyMatches [e] =
      .ok (.ok ([(0, T.size_of, .perVertex), (1, U.size_of, .perVertex)],
        expandedAttribs e.format 0 iT.offset sz e.location_start
          (e.location_end - e.location_start))) ∧
    ∀ x ∈ expandedAttribs e.format 0 iT.offset sz e.location_start
        (e.location_end - e.location_start), x.2.1 = 0 := by
  have hlook : lookupMember T U nm = some (iT, 0) := by rw [lookupMember, hT]
  refine ⟨hlook, ?_, ?_⟩
  · have hpe := processElement_found T U tyMatches hname hlook hty hsz
    simp [definition, processElements, hpe]
  · intro x hx
    obtain ⟨k, hk, rfl⟩ := List.mem_map.mp hx
    rfl

/-- C2 witness: `cT` and `cU` both declare `"pos"`; resolution silently
picks `cT`'s member info and buffer 0. -/
theorem definition_first_match_wins_witness :
    lookupMember cT cU "pos" = some (cInfoT, 0) ∧
    definition cT cU cMatchTrue [cElemPos] =
      .ok (.ok ([(0, cT.size_of, .perVertex), (1, cU.size_of, .perVertex)],
        expandedAttribs cElemPos.format 0 cInfoT.offset 4 cElemPos.location_start
          (cElemPos.location_end - cElemPos.location_start))) ∧
    ∀ x ∈ expandedAttribs cElemPos.format 0 cInfoT.offset 4
        cElemPos.location_start
        (cElemPos.location_end - cElemPos.location_start), x.2.1 = 0 :=
  definition_first_match_wins cT cU cMatchTrue cElemPos "pos" cInfoT cInfoU 4
    rfl rfl rfl rfl rfl

/-- C3: `decode` on any two typed buffers returns the two buffers in group
order, a vertex count equal to the minimum of their element counts, and an
instance count of 1. -/
theorem decode_min_len_and_instance_one (bt bu : TypedBuffer) :
    decode (bt, bu) = ([bt, bu], min bt.len bu.len, 1) := rfl

/-- C4: `num_bindings_in_set` indexes the collection's elements: on the
empty collection it is always absent, on a singleton only index 0 resolves
(to the set's own binding count), and on any group index `i` resolves to
element `i`'s own binding count exactly when `i` is below the element
count, and is absent otherwise.  The outer `some` records that the
computation returns (does not panic). -/
theorem num_bindings_in_set_indexing (s a b : DescriptorSet)
    (rest : List DescriptorSet) (i : Nat) :
    DescriptorSetsCollection.num_bindings_in_set .unit i = some none ∧
    DescriptorSetsCollection.num_bindings_in_set (.single s) i =
      some (if i = 0 then some s.num_bindings else none) ∧
    DescriptorSetsCollection.num_bindings_in_set (.group a b rest) i =
      some (((a :: b :: rest)[i]?).map DescriptorSet.num_bindings) := by
  refine ⟨rfl, rfl, ?_⟩
  have h := DescriptorSetsCollection.num_bindings_in_set_eq (.group a b rest) i
  simpa [DescriptorSetsCollection.elements] using h

/-- C5: `buffers_list` and `images_list` return exactly the concatenation,
in group order, of the elements' own resource lists, and their lengths are
the sums of the per-element lengths. -/
theorem resource_lists_are_ordered_concatenation (c : DescriptorSetsCollection) :
    DescriptorSetsCollection.buffers_list c =
      ((DescriptorSetsCollection.elements c).map DescriptorSet.buffers).flatten ∧
    DescriptorSetsCollection.images_list c =
      ((DescriptorSetsCollection.elements c).map DescriptorSet.images).flatten ∧
    (DescriptorSetsCollection.buffers_list c).length =
      ((DescriptorSetsCollection.elements c).map
        fun s => s.buffers.length).sum ∧
    (DescriptorSetsCollection.images_list c).length =
      ((DescriptorSetsCollection.elements c).map
        fun s => s.images.length).sum := by
  have hb :
      DescriptorSetsCollection.buffers_list c =
        ((DescriptorSetsCollection.elements c).map DescriptorSet.buffers).flatten := by
    cases c with
    | unit => rfl
    | single s => simp [DescriptorSetsCollection.buffers_list,
        DescriptorSetsCollection.elements]
    | group a b rest =>
      rw [DescriptorSetsCollection.buffers_list,
        DescriptorSetsCollection.foldl_extend DescriptorSet.buffers (b :: rest)
          a.buffers]
      simp [DescriptorSetsCollection.elements]
  have hi :
      DescriptorSetsCollection.images_list c =
        ((DescriptorSetsCollection.elements c).map DescriptorSet.images).flatten := by
    cases c with
    | unit => rfl
    | single s => simp [DescriptorSetsCollection.images_list,
        DescriptorSetsCollection.elements]
    | group a b rest =>
      rw [DescriptorSetsCollection.images_list,
        DescriptorSetsCollection.foldl_extend DescriptorSet.images (b :: rest)
          a.images]
      simp [DescriptorSetsCollection.elements]
  refine ⟨hb, hi, ?_, ?_⟩
  · rw [hb]
    simp only [List.length_flatten, List.map_map]
    rfl
  · rw [hi]
    simp only [List.length_flatten, List.map_map]
    rfl

/-- C6: `definition` fails with `MissingAttribute nm` exactly when the
interface splits as earlier elements that all resolve and validate, then
an element named `nm` that neither `T` nor `U` declares. -/
theorem definition_missing_attribute_iff (T U : VertexType)
    (tyMatches : TyMatches) (elems : List ShaderInterfaceDefEntry)
    (nm : String) :
    definition T U tyMatches elems = .ok (.error (.missingAttribute nm)) ↔
      ∃ es₁ e es₂, elems = es₁ ++ e :: es₂ ∧
        e.name = some nm ∧ T.member nm = none ∧ U.member nm = none ∧
        ∃ as, processElements T U tyMatches es₁ = .ok (.ok as) := by
  rw [definition_inner_error_iff]
  constructor
  · intro h
    obtain ⟨es₁, e, es₂, as, hsplit, hpre, hfail⟩ :=
      processElements_error_ok_inv h
    obtain ⟨hname, hlook⟩ := processElement_missing_inv hfail
    obtain ⟨hT, hU⟩ := lookupMember_none_iff.mp hlook
    exact ⟨es₁, e, es₂, hsplit, hname, hT, hU, as, hpre⟩
  · rintro ⟨es₁, e, es₂, rfl, hname, hT, hU, as, hpre⟩
    rw [processElements_append_ok hpre]
    have hpe := processElement_missing T U tyMatches hname
      (lookupMember_none_iff.mpr ⟨hT, hU⟩)
    simp [processElements, hpe, Except.map]

/-- C7: when an element's name resolves to a member (in either vertex
type) whose declared type and array size fail the `matches` check against
the element's format and occupied location count, and all earlier elements
processed successfully, `definition` fails with `FormatMismatch` carrying
the name, the shader's format and location count, and the member's type
and array size. -/
theorem definition_format_mismatch (T U : VertexType) (tyMatches : TyMatches)
    (es₁ : List ShaderInterfaceDefEntry) (e : ShaderInterfaceDefEntry)
    (es₂ : List ShaderInterfaceDefEntry)
    (as : List (Nat × Nat × AttributeInfo)) (nm : String)
    (infos : VertexMemberInfo) (b : Nat)
    (hpre : processElements T U tyMatches es₁ = .ok (.ok as))
    (hname : e.name = some nm)
    (hlook : lookupMember T U nm = some (infos, b))
    (hty : tyMatches infos.ty infos.array_size e.format
      (e.location_end - e.location_start) = false) :
    definition T U tyMatches (es₁ ++ e :: es₂) =
      .ok (.error (.formatMismatch nm
        (e.format, e.location_end - e.location_start)
        (infos.ty, infos.array_size))) := by
  rw [definition_inner_error_iff, processElements_append_ok hpre]
  have hpe := processElement_mismatch T U tyMatches hname hlook hty
  simp [processElements, hpe, Except.map]

/-- C7 witness: a shader element of count 1 against a member declaring
array size 3 fails with `FormatMismatch`. -/
theorem definition_format_mismatch_witness :
    definition cTArr cEmptyVertex cMatchCount ([] ++ cElemPos1 :: []) =
      .ok (.error (.formatMismatch "pos"
        (cElemPos1.format, cElemPos1.location_end - cElemPos1.location_start)
        (cInfoArr3.ty, cInfoArr3.array_size))) :=
  definition_format_mismatch cTArr cEmptyVertex cMatchCount [] cElemPos1 []
    [] "pos" cInfoArr3 0 rfl rfl rfl rfl

/-- C8: a validated element with location range `[a, b)` contributes
exactly `b - a` attribute bindings, one per location, each carrying the
element's format and the winning buffer index, with byte offsets starting
at the member's declared offset and advancing by the format's
per-location size. -/
theorem definition_expands_locations (T U : VertexType) (tyMatches : TyMatches)
    (es₁ : List ShaderInterfaceDefEntry) (e : ShaderInterfaceDefEntry)
    (es₂ : List ShaderInterfaceDefEntry)
    (as bs : List (Nat × Nat × AttributeInfo)) (nm : String)
    (infos : VertexMemberInfo) (b sz : Nat)
    (hpre : processElements T U tyMatches es₁ = .ok (.ok as))
    (hname : e.name = some nm)
    (hlook : lookupMember T U nm = some (infos, b))
    (hty : tyMatches infos.ty infos.array_size e.format
      (e.location_end - e.location_start) = true)
    (hsz : e.format.size = some sz)
    (hpost : processElements T U tyMatches es₂ = .ok (.ok bs)) :
    definition T U tyMatches (es₁ ++ e :: es₂) =
      .ok (.ok ([(0, T.size_of, .perVertex), (1, U.size_of, .perVertex)],
        as ++ (expandedAttribs e.format b infos.offset sz e.location_start
          (e.location_end - e.location_start) ++ bs))) ∧
    (expandedAttribs e.format b infos.offset sz e.location_start
      (e.location_end - e.location_start)).length =
      e.location_end - e.location_start := by
  have hpe := processElement_found T U tyMatches hname hlook hty hsz
  have h1 : processElements T U tyMatches (e :: es₂) =
      .ok (.ok (expandedAttribs e.format b infos.offset sz e.location_start
        (e.location_end - e.location_start) ++ bs)) := by
    simp [processElements, hpe, hpost]
  have h2 : processElements T U tyMatches (es₁ ++ e :: es₂) =
      .ok (.ok (as ++ (expandedAttribs e.format b infos.offset sz
        e.location_start (e.location_end - e.location_start) ++ bs))) := by
    rw [processElements_append_ok hpre, h1]
    simp [Except.map]
  exact ⟨by simp [definition, h2], expandedAttribs_length _ _ _ _ _ _⟩

/-- C8 witness: the element `cElemPos` spans locations `[2, 4)` and
produces exactly two bindings with offsets 0 and 4. -/
theorem definition_expands_locations_witness :
    (definition cT cU cMatchTrue ([] ++ cElemPos :: []) =
      .ok (.ok ([(0, cT.size_of, .perVertex), (1, cU.size_of, .perVertex)],
        [] ++ (expandedAttribs cElemPos.format 0 cInfoT.offset 4
          cElemPos.location_start
          (cElemPos.location_end - cElemPos.location_start) ++ []))) ∧
    (expandedAttribs cElemPos.format 0 cInfoT.offset 4 cElemPos.location_start
      (cElemPos.location_end - cElemPos.location_start)).length =
      cElemPos.location_end - cElemPos.location_start) ∧
    cElemPos.location_end - cElemPos.location_start = 2 :=
  ⟨definition_expands_locations cT cU cMatchTrue [] cElemPos [] [] [] "pos"
    cInfoT 0 4 rfl rfl rfl rfl rfl rfl, rfl⟩

/-- C9: the range queries are total — `num_bindings_in_set` and
`descriptor` never hit the panicking `usize` underflow (the outer layer is
always `some`), and every out-of-range index yields the inner `none`,
since the element lookup is exactly list indexing. -/
theorem range_queries_never_panic (c : DescriptorSetsCollection)
    (set binding : Nat) :
    DescriptorSetsCollection.num_bindings_in_set c set =
      some (((DescriptorSetsCollection.elements c)[set]?).map
        DescriptorSet.num_bindings) ∧
    DescriptorSetsCollection.descriptor c set binding =
      some (((DescriptorSetsCollection.elements c)[set]?).bind
        fun s => s.descriptor binding) :=
  ⟨DescriptorSetsCollection.num_bindings_in_set_eq c set,
    DescriptorSetsCollection.descriptor_eq c set binding⟩

/-- C10 counterexample: an interface whose first element is named but
missing from both vertex types and whose second element is unnamed makes
`definition` return the `MissingAttribute` error — it does not reach the
name unwrap, so the presence of an unnamed element alone does not imply a
panic. -/
theorem definition_unnamed_after_missing_no_panic :
    cElemUnnamed.name = none ∧
    definition cEmptyVertex cEmptyVertex cMatchTrue
        [cElemColor, cElemUnnamed] =
      .ok (.error (.missingAttribute "color")) ∧
    definition cEmptyVertex cEmptyVertex cMatchTrue
        [cElemColor, cElemUnnamed] ≠ .error .nameUnwrap := by
  refine ⟨rfl, rfl, fun h => ?_⟩
  have hv : definition cEmptyVertex cEmptyVertex cMatchTrue
      [cElemColor, cElemUnnamed] =
      .ok (.error (.missingAttribute "color")) := rfl
  rw [hv] at h
  exact Except.noConfusion h

/-- C10 (amended): `definition` panics on the name unwrap exactly when the
interface splits as earlier elements that all resolve and validate
followed by an element whose name is `None`; in particular, when every
element carries a name the name-unwrap panic is unreachable. -/
theorem definition_name_unwrap_panic_iff (T U : VertexType)
    (tyMatches : TyMatches) (elems : List ShaderInterfaceDefEntry) :
    definition T U tyMatches elems = .error .nameUnwrap ↔
      ∃ es₁ e es₂, elems = es₁ ++ e :: es₂ ∧ e.name = none ∧
        ∃ as, processElements T U tyMatches es₁ = .ok (.ok as) := by
  rw [definition_panic_iff]
  constructor
  · intro h
    obtain ⟨es₁, e, es₂, as, hsplit, hpre, hfail⟩ :=
      processElements_panic_inv h
    exact ⟨es₁, e, es₂, hsplit, processElement_nameUnwrap_inv hfail, as, hpre⟩
  · rintro ⟨es₁, e, es₂, rfl, hname, as, hpre⟩
    rw [processElements_append_ok hpre]
    have hpe := processElement_of_name_none T U tyMatches hname
    simp [processElements, hpe, Except.map]

end Vulkano
